import Mathlib

/-!
Shallow embedding of `perplexity-export-convert.py`.

Strings are modelled as Lean `String` (a packed `List Char`), which matches
Python's code-point view of `str` for the ASCII data exercised here.  Regular
expressions from the source are compiled by hand into recursive functions on
`List Char`; each such definition carries a comment tying it to the regex it
implements, with a note on why the translation is exact.
-/

deriving instance DecidableEq for Except

namespace PEC

/-- The character written `\x60` (backquote); the source removes it with
`text.replace(&quot;`&quot;, ...)`. -/
def backquote : Char := Char.ofNat 96

/-- Python's `\s` / `str.strip()` whitespace, restricted to the six ASCII
whitespace characters (the inputs of interest are ASCII; Python would also
accept some further Unicode whitespace). -/
def isPySpace (c : Char) : Bool :=
  c = ' ' || c = '\t' || c = '\n' || c = '\r' || c = '\x0b' || c = '\x0c'

/-- The character class kept by `re.sub(r'[^a-zA-Z0-9\s.,\-_()\"@]+', '_', text)`:
ASCII letters, digits, whitespace, and the listed punctuation. -/
def allowedOrWs (c : Char) : Bool :=
  c.isAlpha || c.isDigit || isPySpace c ||
  c = '.' || c = ',' || c = '-' || c = '_' || c = '(' || c = ')' || c = '"' || c = '@'

/-- The allow-set of the spec (section 8): letters, digits, space and the
punctuation `. , - _ ( ) " @`.  This is `allowedOrWs` with the only whitespace
being a plain space. -/
def allowedChar (c : Char) : Bool :=
  c.isAlpha || c.isDigit || c = ' ' ||
  c = '.' || c = ',' || c = '-' || c = '_' || c = '(' || c = ')' || c = '"' || c = '@'

/-- Characters removed by `re.sub(r'[<>:"/\\|?*]', '', safe_title)` (each single
character of the class is deleted). -/
def fsInvalidChar (c : Char) : Bool :=
  c = '<' || c = '>' || c = ':' || c = '"' || c = '/' || c = '\\' || c = '|' || c = '?' || c = '*'

/-- `text.replace("\n", " ").replace("\r", " ")`: both are single-character
replacements, i.e. a character map. -/
def nlCrToSpace (c : Char) : Char :=
  if c = '\n' ∨ c = '\r' then ' ' else c

/-- `re.sub(r'[^...]+', '_', text)`: every maximal run of characters outside
`allowedOrWs` becomes a single underscore.  The two-element pattern collapses a
run character-by-character: all but the last character of a run are dropped,
the last becomes `'_'`. -/
def subDisallowed : List Char → List Char
  | [] => []
  | [c] => if allowedOrWs c then [c] else ['_']
  | c :: d :: rest =>
    if !allowedOrWs c && !allowedOrWs d then subDisallowed (d :: rest)
    else (if allowedOrWs c then c else '_') :: subDisallowed (d :: rest)

/-- `re.sub(r'\s+', ' ', text)`: every maximal whitespace run becomes one space. -/
def collapseWs : List Char → List Char
  | [] => []
  | [c] => [if isPySpace c then ' ' else c]
  | c :: d :: rest =>
    if isPySpace c && isPySpace d then collapseWs (d :: rest)
    else (if isPySpace c then ' ' else c) :: collapseWs (d :: rest)

/-- `re.sub(r'_+', '_', text)`: every maximal underscore run becomes one `'_'`. -/
def collapseUnderscores : List Char → List Char
  | [] => []
  | [c] => [c]
  | c :: d :: rest =>
    if c = '_' && d = '_' then collapseUnderscores (d :: rest)
    else c :: collapseUnderscores (d :: rest)

/-- Python `str.lower()` restricted to ASCII: map `A`-`Z` to `a`-`z` (the
modes this program lowers are ASCII tags such as `WEB`; Unicode lowering is
not modelled). -/
def pyLowerChar (c : Char) : Char :=
  if 'A' ≤ c ∧ c ≤ 'Z' then Char.ofNat (c.toNat + 32) else c

def pyLower (s : String) : String :=
  String.mk (s.toList.map pyLowerChar)

/-- Python `str.strip(chars)`: drop characters satisfying `p` from both ends. -/
def pyStrip (p : Char → Bool) (l : List Char) : List Char :=
  ((l.dropWhile p).reverse.dropWhile p).reverse

/-- Python slicing `l[:n]` for a possibly negative bound `n` (a negative bound
counts from the end, clamped at zero). -/
def pySliceTo (l : List Char) (n : Int) : List Char :=
  if n < 0 then l.take (l.length - min l.length n.natAbs) else l.take n.toNat

/-- Configuration after TOML loading with the source's per-access defaults
applied (`config.get("filename", {}).get("max_length", 128)` and so on).
Field names follow the config keys. -/
structure Config where
  max_length : Nat := 128
  append_date : Bool := false
  date_format : String := "%Y%m%dT%H%M%S"
  assets_location : String := "assets"
  relative_to_markdown : Bool := false
  base_dir : String := "output"
  wikilinks : Bool := false
  collections : List (String × String) := []
deriving Repr, DecidableEq

/-- `sanitize_text(text, for_metadata)`: newline/CR to space, backquote
removal, (for metadata) the allow-set substitution, whitespace and underscore
collapse, then `.strip().strip('_')`. -/
def sanitize_text (text : String) (for_metadata : Bool) : String :=
  let cs := (text.toList.map nlCrToSpace).filter (fun c => c ≠ backquote)
  let cs := if for_metadata then subDisallowed cs else cs
  let cs := collapseWs cs
  let cs := collapseUnderscores cs
  let cs := pyStrip isPySpace cs
  let cs := pyStrip (fun c => c = '_') cs
  String.mk cs

/-- The character-cleanup phase of `sanitize_filename` (everything before the
length truncation): newline/CR to space, backquote removal, allow-set
substitution, removal of filesystem-invalid characters, whitespace and
underscore collapse, `.strip().strip('_')`. -/
def sanitizeCleaned (title : String) : List Char :=
  pyStrip (fun c => c = '_') (pyStrip isPySpace (collapseUnderscores (collapseWs
    ((subDisallowed ((title.toList.map nlCrToSpace).filter (fun c => c ≠ backquote))).filter
      (fun c => !fsInvalidChar c)))))

/-- `sanitize_filename` up to (but excluding) the final
`if not safe_title: safe_title = "untitled"` fallback: the cleanup phase, then
`safe_title[:available_length].strip().strip('_')` when the cleaned title is
longer than `max_length - reserve_for_date`. -/
def sanitizeCore (cfg : Config) (title : String) (reserve_for_date : Nat) : List Char :=
  if ((sanitizeCleaned title).length : Int) > (cfg.max_length : Int) - (reserve_for_date : Int) then
    pyStrip (fun c => c = '_') (pyStrip isPySpace
      (pySliceTo (sanitizeCleaned title) ((cfg.max_length : Int) - (reserve_for_date : Int))))
  else sanitizeCleaned title

/-- `sanitize_filename(title, reserve_for_date)`. -/
def sanitize_filename (cfg : Config) (title : String) (reserve_for_date : Nat) : String :=
  if (sanitizeCore cfg title reserve_for_date).isEmpty then "untitled"
  else String.mk (sanitizeCore cfg title reserve_for_date)

/-- A parsed `datetime` value (naive or with an offset the program ignores:
it only ever formats the parsed fields). -/
structure PyDateTime where
  year : Nat := 0
  month : Nat := 0
  day : Nat := 0
  hour : Nat := 0
  minute : Nat := 0
  second : Nat := 0
deriving Repr, DecidableEq

/-- `created_at.replace("Z", "+00:00")`: the pattern is a single character, so
this is a per-character expansion. -/
def replaceZ : List Char → List Char
  | [] => []
  | 'Z' :: rest => '+' :: '0' :: '0' :: ':' :: '0' :: '0' :: replaceZ rest
  | c :: rest => c :: replaceZ rest

def digitVal (c : Char) : Nat := c.toNat - '0'.toNat

def twoDigits (a b : Char) : Nat := 10 * digitVal a + digitVal b

/-- Timezone tail accepted after the seconds: empty, or `±HH:MM`. -/
def tzOk : List Char → Bool
  | [] => true
  | s :: h1 :: h2 :: ':' :: m1 :: m2 :: [] =>
    (s = '+' || s = '-') && h1.isDigit && h2.isDigit && m1.isDigit && m2.isDigit
  | _ => false

/-- Modelled from the spec: Python's `datetime.fromisoformat` (standard
library, not part of this repository's sources).  The model accepts
`YYYY-MM-DD`, optionally followed by `T` or a space and `HH:MM:SS`, optionally
followed by a `±HH:MM` offset, with basic range validation; every other string
is a parse failure (`ValueError` in Python, `none` here).  The subset covers
every shape this program feeds it; fractional seconds and other rarer ISO-8601
forms would parse in Python but are rejected here, and no claim depends on
them. -/
def fromisoformat (s : String) : Option PyDateTime :=
  match s.toList with
  | y1 :: y2 :: y3 :: y4 :: '-' :: m1 :: m2 :: '-' :: d1 :: d2 :: rest =>
    if y1.isDigit && y2.isDigit && y3.isDigit && y4.isDigit &&
       m1.isDigit && m2.isDigit && d1.isDigit && d2.isDigit then
      let year := 1000 * digitVal y1 + 100 * digitVal y2 + 10 * digitVal y3 + digitVal y4
      let month := twoDigits m1 m2
      let day := twoDigits d1 d2
      if 1 ≤ month && month ≤ 12 && 1 ≤ day && day ≤ 31 then
        match rest with
        | [] => some { year, month, day }
        | sep :: h1 :: h2 :: ':' :: mi1 :: mi2 :: ':' :: s1 :: s2 :: tz =>
          if (sep = 'T' || sep = ' ') && h1.isDigit && h2.isDigit &&
             mi1.isDigit && mi2.isDigit && s1.isDigit && s2.isDigit && tzOk tz then
            let hour := twoDigits h1 h2
            let minute := twoDigits mi1 mi2
            let second := twoDigits s1 s2
            if hour ≤ 23 && minute ≤ 59 && second ≤ 59 then
              some { year, month, day, hour, minute, second }
            else none
          else none
        | _ => none
      else none
    else none
  | _ => none

/-- Decimal digits of `n` left-padded with zeros to width `w`. -/
def padNat (w : Nat) (n : Nat) : List Char :=
  let ds := Nat.toDigits 10 n
  List.replicate (w - ds.length) '0' ++ ds

/-- One `strftime` directive.  The program only ever uses
`%Y %m %d %H %M %S` (via the default `date_format` and the hard-coded
`"%Y-%m-%d"`); any other directive is kept literally. -/
def strfDirective (dt : PyDateTime) (c : Char) : List Char :=
  if c = 'Y' then padNat 4 dt.year
  else if c = 'm' then padNat 2 dt.month
  else if c = 'd' then padNat 2 dt.day
  else if c = 'H' then padNat 2 dt.hour
  else if c = 'M' then padNat 2 dt.minute
  else if c = 'S' then padNat 2 dt.second
  else if c = '%' then ['%']
  else ['%', c]

def strftimeAux (dt : PyDateTime) : List Char → List Char
  | [] => []
  | '%' :: c :: rest => strfDirective dt c ++ strftimeAux dt rest
  | c :: rest => c :: strftimeAux dt rest

/-- Modelled from the spec: `datetime.strftime` (standard library) for the
directives this program uses. -/
def strftime (dt : PyDateTime) (fmt : String) : String :=
  String.mk (strftimeAux dt fmt.toList)

/-- `format_date(iso_datetime)`: empty input gives `""`; a parse failure is
caught (`except Exception`) and the *original* string is returned verbatim. -/
def format_date (cfg : Config) (iso_datetime : String) : String :=
  if iso_datetime = "" then ""
  else
    match fromisoformat (String.mk (replaceZ iso_datetime.toList)) with
    | some dt => strftime dt cfg.date_format
    | none => iso_datetime

/-- The timestamp suffix of `generate_unique_filename`: parse `created_at`
when truthy (a `ValueError` propagates, modelled as `.error`), else format the
current time `now`. -/
def dateSuffix (cfg : Config) (now : PyDateTime) (created_at : String) : Except String String :=
  if created_at = "" then .ok (strftime now cfg.date_format)
  else
    match fromisoformat (String.mk (replaceZ created_at.toList)) with
    | some dt => .ok (strftime dt cfg.date_format)
    | none => .error ("ValueError: Invalid isoformat string: " ++ created_at)

/-- `generate_unique_filename(title, created_at, output_dir)`.  The target
directory's contents are passed explicitly as the list `existing` of filenames
for which `(output_dir / filename).exists()` holds. -/
def generate_unique_filename (cfg : Config) (now : PyDateTime) (title created_at : String)
    (existing : List String) : Except String String :=
  match dateSuffix cfg now created_at with
  | .error e => .error e
  | .ok date_suffix =>
    if cfg.append_date then
      .ok (sanitize_filename cfg title (date_suffix.length + 1) ++ "-" ++ date_suffix ++ ".md")
    else
      if sanitize_filename cfg title 0 ++ ".md" ∈ existing then
        .ok (sanitize_filename cfg title (date_suffix.length + 1 + 15) ++ "-" ++ date_suffix ++ ".md")
      else
        .ok (sanitize_filename cfg title 0 ++ ".md")

/-- `get_collection_name(collection_uuid)`: `None` maps to `"uncategorized"`,
otherwise `collections.get(uuid, uuid)`. -/
def get_collection_name (cfg : Config) (collection_uuid : Option String) : String :=
  match collection_uuid with
  | none => "uncategorized"
  | some u => (cfg.collections.lookup u).getD u

/-- `pathlib`'s `base / seg` for a single relative segment: an empty segment
is dropped (`Path("output") / "" == Path("output")`). -/
def pathJoin (base seg : String) : String :=
  if seg = "" then base else base ++ "/" ++ seg

/-- `re.sub(r'(\[\d+\])+', '', text)` as a left-to-right scan.  `pend` is the
candidate currently being read: either empty, or `'['` followed by the digits
seen so far.  A match of the regex is a maximal run of `[digits]` units; the
scan deletes exactly those units: a unit is recognised when a `']'` closes a
candidate holding at least one digit, and a failed candidate is flushed
verbatim (no run can begin inside it, because a run begins with `'['` and a
candidate contains no second `'['; the failing character itself may open a new
candidate).  Greedy repetition of the group needs no lookahead here because
consecutive units are simply recognised one after the other. -/
def rmcAux : List Char → List Char → List Char
  | pend, [] => pend
  | pend, c :: rest =>
    match pend with
    | [] => if c = '[' then rmcAux ['['] rest else c :: rmcAux [] rest
    | _ =>
      if c.isDigit then rmcAux (pend ++ [c]) rest
      else if c = ']' && pend.length ≥ 2 then rmcAux [] rest
      else if c = '[' then pend ++ rmcAux ['['] rest
      else pend ++ (c :: rmcAux [] rest)

/-- `remove_citation_numbers(text)`. -/
def remove_citation_numbers (text : String) : String :=
  String.mk (rmcAux [] text.toList)

/-- Python's `content.split('\n')`: maximal split on newline; `"" → [""]`,
and a trailing newline yields a final `""` part. -/
def splitNl : List Char → List (List Char)
  | [] => [[]]
  | '\n' :: rest => [] :: splitNl rest
  | c :: rest =>
    match splitNl rest with
    | [] => [[c]]
    | l :: ls => (c :: l) :: ls

/-- `'\n'.join(lines)`: the parts in order with a single `'\n'` between
adjacent parts. -/
def joinNl : List (List Char) → List Char
  | [] => []
  | [l] => l
  | l :: ls => l ++ '\n' :: joinNl ls

/-- `re.match(r'^(#+)\s', line)` as a Bool: the line starts with one or more
`'#'` followed by a whitespace character.  `(#+)` is forced to the maximal
`'#'` run because the following `\s` cannot match `'#'`. -/
def headingMatch (l : List Char) : Bool :=
  let hashes := l.takeWhile (fun c => c = '#')
  let rest := l.dropWhile (fun c => c = '#')
  !hashes.isEmpty &&
    (match rest with
     | c :: _ => isPySpace c
     | [] => false)

/-- The per-line body of the `demote_headings` loop:
`line.strip().startswith('#')`, then `re.match(r'^(#+)\s', line)`, and on a
match `'#' + remove_citation_numbers(line)`. -/
def demoteLine (l : List Char) : List Char :=
  if (pyStrip isPySpace l).take 1 = ['#'] then
    if headingMatch l then '#' :: rmcAux [] l else l
  else l

/-- `demote_headings(content)`: split on newlines, transform each line, join. -/
def demote_headings (content : String) : String :=
  String.mk (joinNl ((splitNl content.toList).map demoteLine))

/-- `re.search(r'^\s*#\s', answer, re.MULTILINE)` decided per line.  With
`re.MULTILINE`, `^` matches at the string start and after every `'\n'`; from
such a position the pattern is forced: skip the (unique) maximal whitespace
run, require `'#'`, require one more whitespace character.  If the skipped
whitespace crosses a `'\n'`, the position just after that `'\n'` is itself a
line start reaching the same `'#'`, so it suffices to test each line: after
dropping leading whitespace the line starts with `'#'` followed by another
whitespace character — where for a non-final line the terminating `'\n'`
itself can serve as that whitespace character. -/
def lineTriggers (l : List Char) (hasNext : Bool) : Bool :=
  match l.dropWhile isPySpace with
  | '#' :: c :: _ => isPySpace c
  | ['#'] => hasNext
  | _ => false

def searchLevel1Lines : List (List Char) → Bool
  | [] => false
  | [l] => lineTriggers l false
  | l :: rest => lineTriggers l true || searchLevel1Lines rest

/-- The `re.search(r'^\s*#\s', answer, re.MULTILINE)` test of `create_markdown`. -/
def hasLevel1 (answer : String) : Bool :=
  searchLevel1Lines (splitNl answer.toList)

/-- The answer-cleanup branch of `create_markdown`:
`if answer and re.search(...): demote_headings else remove_citation_numbers`. -/
def processAnswer (answer : String) : String :=
  if !answer.isEmpty && hasLevel1 answer then demote_headings answer
  else remove_citation_numbers answer

/-- One `entries[]` element, with one optional field per key the payload may
carry.  The code reads the keys `query`, `answer`, `mode`, `created_at` and
`query_status` (each via `.get` with the shown default); the spec instead
names the status field `status`, so that key is modelled too — the code never
reads it.  `created_at` is modelled as a plain string with `""` for absent,
matching the `.get("created_at", "")` default and the truthiness tests. -/
structure Entry where
  query : Option String := none
  answer : Option String := none
  mode : Option String := none
  created_at : String := ""
  query_status : Option String := none
  status : Option String := none
deriving Repr, DecidableEq

/-- One conversation record. -/
structure Conv where
  context_title : Option String := none
  created_at : String := ""
  collection_uuid : Option String := none
  mode : Option String := none
  entries : List Entry := []
deriving Repr, DecidableEq

/-- The `answer_heading_parts` construction of `create_markdown`: a list of
pieces joined with `"".join`. -/
def answerHeading (cfg : Config) (conv_mode : String) (e : Entry) : String :=
  let entry_mode := e.mode.getD conv_mode
  let query_status := e.query_status.getD "COMPLETED"
  String.join
    ([ "# Answer (" ++ pyLower entry_mode ]
     ++ (if e.created_at ≠ "" then [" - " ++ format_date cfg e.created_at] else [])
     ++ [if query_status ≠ "COMPLETED" then ") " ++ query_status else ")"])

/-- The four lines appended for one entry. -/
def entryLines (cfg : Config) (conv_mode : String) (e : Entry) : List String :=
  ["\n# Query", e.query.getD "",
   "\n" ++ answerHeading cfg conv_mode e,
   processAnswer (e.answer.getD "")]

/-- The `Date:` metadata value of `create_markdown`: `"Unknown"` for a falsy
`created_at`, else the parsed date formatted `%Y-%m-%d` — the
`datetime.fromisoformat` call here has no try/except around it, so a parse
failure propagates (modelled as `.error`). -/
def recordDateStr (conv : Conv) : Except String String :=
  if conv.created_at = "" then .ok "Unknown"
  else
    match fromisoformat (String.mk (replaceZ conv.created_at.toList)) with
    | some dt => .ok (strftime dt "%Y-%m-%d")
    | none => .error ("ValueError: Invalid isoformat string: " ++ conv.created_at)

/-- `create_markdown(conversation)`.  The only fallible step is the metadata
date.  `export_date` is `self.export_date`, fixed at construction time of the
exporter — one value per run. -/
def create_markdown (cfg : Config) (export_date : String) (conv : Conv) :
    Except String String :=
  match recordDateStr conv with
  | .error e => .error e
  | .ok date_str =>
    .ok (String.intercalate "\n"
      (["---", "Date: " ++ date_str,
        "title: " ++ sanitize_text (conv.context_title.getD "Untitled") true,
        "export date: " ++ export_date, "---"]
       ++ (conv.entries.map (entryLines cfg (conv.mode.getD "UNKNOWN"))).flatten))

/-- One element of `self.errors` as appended by `log_error`. -/
structure ErrorEntry where
  title : String
  error : String
  timestamp : String
deriving Repr, DecidableEq

/-- A file written by the run: target directory (full path), filename,
content. -/
structure FileOut where
  dir : String
  name : String
  content : String
deriving Repr, DecidableEq

/-- The body of one iteration of the `for conv in conversations` loop, up to
the `print`/counter bookkeeping: resolve the collection directory, generate a
unique filename against the files already present in that directory, render
the markdown.  `fs` is the set of files on disk, as (directory, filename)
pairs; directory creation cannot fail in the model. -/
def dirOf (cfg : Config) (output_base : String) (conv : Conv) : String :=
  pathJoin output_base (get_collection_name cfg conv.collection_uuid)

def processOne (cfg : Config) (export_date : String) (now : PyDateTime)
    (output_base : String) (fs : List (String × String)) (conv : Conv) :
    Except String FileOut :=
  match generate_unique_filename cfg now (conv.context_title.getD "Untitled") conv.created_at
      ((fs.filter (fun p => p.1 = dirOf cfg output_base conv)).map (·.2)) with
  | .error e => .error e
  | .ok filename =>
    match create_markdown cfg export_date conv with
    | .error e => .error e
    | .ok content => .ok { dir := dirOf cfg output_base conv, name := filename, content }

/-- Result of processing the conversation list. -/
structure ProcResult where
  files : List FileOut
  errors : List ErrorEntry
  successful : Nat
  failed : Nat
deriving Repr, DecidableEq

/-- The `for conv in conversations` loop of `process_json_export`.  A success
writes the file (extending `fs`, which the next record's collision check
sees) and increments `successful`; an exception is caught, logged via
`log_error` with `datetime.now().isoformat()` (the run clock `now_iso`), and
processing continues with the next record. -/
def processConvs (cfg : Config) (export_date : String) (now : PyDateTime)
    (now_iso : String) (output_base : String) :
    List Conv → List (String × String) → ProcResult
  | [], _ => { files := [], errors := [], successful := 0, failed := 0 }
  | conv :: rest, fs =>
    match processOne cfg export_date now output_base fs conv with
    | .ok f =>
      let r := processConvs cfg export_date now now_iso output_base rest ((f.dir, f.name) :: fs)
      { files := f :: r.files, errors := r.errors,
        successful := r.successful + 1, failed := r.failed }
    | .error e =>
      let r := processConvs cfg export_date now now_iso output_base rest fs
      { files := r.files,
        errors := { title := conv.context_title.getD "Untitled", error := e,
                    timestamp := now_iso } :: r.errors,
        successful := r.successful, failed := r.failed + 1 }

/-- How loading the input stands: the file may be missing (`run` exits with
status 1 before processing), present but not valid JSON (`process_json_export`
catches the `json.load` error and exits with status 1), or parsed into the
`conversations` list. -/
inductive LoadResult where
  | missing
  | unparseable
  | parsed (convs : List Conv)
deriving Repr, DecidableEq

/-- Outcome of one whole run. -/
structure RunOutcome where
  exitCode : Nat
  files : List FileOut := []
  errors : List ErrorEntry := []
  successful : Nat := 0
  failed : Nat := 0
  errorLogWritten : Bool := false
deriving Repr, DecidableEq

/-- `write_error_log` reached from `process_json_export`: the log file is
written when `failed > 0` (the call site's guard) and `self.errors` is
non-empty (the early return inside `write_error_log`). -/
def errorLogWritten (failed : Nat) (errors : List ErrorEntry) : Bool :=
  if failed > 0 then !errors.isEmpty else false

/-- `PerplexityExporter.run` followed by `process_json_export`, for a run
whose construction-time clock is `init_now` (giving the run-scoped
`self.export_date = datetime.now().strftime("%Y-%m-%d")`), whose in-loop
clock is `now` / `now_iso`, and whose input file state is `load`.  A missing
file and an unloadable JSON both `sys.exit(1)`; otherwise the loop runs and
the process ends normally (exit status 0). -/
def runExporter (cfg : Config) (init_now : PyDateTime) (now : PyDateTime)
    (now_iso : String) (load : LoadResult) : RunOutcome :=
  match load with
  | .missing => { exitCode := 1 }
  | .unparseable => { exitCode := 1 }
  | .parsed convs =>
    let export_date := strftime init_now "%Y-%m-%d"
    let r := processConvs cfg export_date now now_iso cfg.base_dir convs []
    { exitCode := 0, files := r.files, errors := r.errors,
      successful := r.successful, failed := r.failed,
      errorLogWritten := errorLogWritten r.failed r.errors }

/-- Following the claim's words (C3): a line that *is* a level-1 heading,
"a line beginning with exactly one `#` then whitespace".  (Exactly one is
implied: the following character is whitespace, hence not `'#'`.) -/
def specLevel1Line (l : List Char) : Bool :=
  match l with
  | '#' :: c :: _ => isPySpace c
  | _ => false

/-- Following the claim's words (C3): some line of the answer is a level-1
heading. -/
def specHasLevel1 (answer : String) : Bool :=
  (splitNl answer.toList).any specLevel1Line

/-- Following the claim's words (C5): the answer heading built from the
entry's `status` field (the field name the claim asserts), instead of the
`query_status` key the code actually reads. -/
def specAnswerHeading (cfg : Config) (conv_mode : String) (e : Entry) : String :=
  let entry_mode := e.mode.getD conv_mode
  let status := e.status.getD "COMPLETED"
  String.join
    ([ "# Answer (" ++ pyLower entry_mode ]
     ++ (if e.created_at ≠ "" then [" - " ++ format_date cfg e.created_at] else [])
     ++ [if status ≠ "COMPLETED" then ") " ++ status else ")"])

/-! ## Helper lemmas -/

lemma mem_of_mem_dropWhile {p : Char → Bool} {l : List Char} {c : Char}
    (h : c ∈ l.dropWhile p) : c ∈ l :=
  List.Sublist.mem h (List.dropWhile_sublist p)

lemma mem_of_mem_pyStrip {p : Char → Bool} {l : List Char} {c : Char}
    (h : c ∈ pyStrip p l) : c ∈ l := by
  unfold pyStrip at h
  rw [List.mem_reverse] at h
  have h2 := mem_of_mem_dropWhile h
  rw [List.mem_reverse] at h2
  exact mem_of_mem_dropWhile h2

lemma mem_of_mem_pySliceTo {l : List Char} {n : Int} {c : Char}
    (h : c ∈ pySliceTo l n) : c ∈ l := by
  unfold pySliceTo at h
  split at h <;> exact List.mem_of_mem_take h

lemma subDisallowed_chars {c : Char} :
    ∀ {l : List Char}, c ∈ subDisallowed l → allowedOrWs c = true := by
  intro l
  induction l with
  | nil => simp [subDisallowed]
  | cons a t ih =>
    cases t with
    | nil =>
      intro h
      simp only [subDisallowed] at h
      split at h
      · simp only [List.mem_singleton] at h; subst h; assumption
      · simp only [List.mem_singleton] at h; subst h; decide
    | cons b t' =>
      intro h
      simp only [subDisallowed] at h
      split at h
      · exact ih h
      · rcases List.mem_cons.mp h with h1 | h1
        · subst h1
          split
          · assumption
          · decide
        · exact ih h1

lemma collapseWs_chars {c : Char} :
    ∀ {l : List Char}, c ∈ collapseWs l → c = ' ' ∨ (c ∈ l ∧ isPySpace c = false) := by
  intro l
  induction l with
  | nil => simp [collapseWs]
  | cons a t ih =>
    cases t with
    | nil =>
      intro h
      simp only [collapseWs, List.mem_singleton] at h
      subst h
      by_cases ha : isPySpace a = true
      · left; simp [ha]
      · right
        rw [if_neg (by simpa using ha)]
        exact ⟨List.mem_singleton_self a, by simpa using ha⟩
    | cons b t' =>
      intro h
      simp only [collapseWs] at h
      split at h
      · rcases ih h with h1 | ⟨h1, h2⟩
        · exact Or.inl h1
        · exact Or.inr ⟨List.mem_cons_of_mem a h1, h2⟩
      · rcases List.mem_cons.mp h with h1 | h1
        · subst h1
          by_cases ha : isPySpace a = true
          · left; simp [ha]
          · right
            rw [if_neg (by simpa using ha)]
            exact ⟨List.mem_cons_self a _, by simpa using ha⟩
        · rcases ih h1 with h2 | ⟨h2, h3⟩
          · exact Or.inl h2
          · exact Or.inr ⟨List.mem_cons_of_mem a h2, h3⟩

lemma collapseUnderscores_subset {c : Char} :
    ∀ {l : List Char}, c ∈ collapseUnderscores l → c ∈ l := by
  intro l
  induction l with
  | nil => simp [collapseUnderscores]
  | cons a t ih =>
    cases t with
    | nil => intro h; simpa [collapseUnderscores] using h
    | cons b t' =>
      intro h
      simp only [collapseUnderscores] at h
      split at h
      · exact List.mem_cons_of_mem a (ih h)
      · rcases List.mem_cons.mp h with h1 | h1
        · exact h1 ▸ List.mem_cons_self a _
        · exact List.mem_cons_of_mem a (ih h1)

lemma head?_dropWhile_false {p : Char → Bool} {c : Char} :
    ∀ {l : List Char}, (List.dropWhile p l).head? = some c → p c = false := by
  intro l
  induction l with
  | nil => simp [List.dropWhile]
  | cons a t ih =>
    intro h
    rw [List.dropWhile_cons] at h
    split at h
    · exact ih h
    · simp only [List.head?_cons, Option.some.injEq] at h
      subst h
      rename_i hpa
      exact (Bool.not_eq_true _) ▸ hpa

lemma getLast?_dropWhile_eq {p : Char → Bool} {c : Char} :
    ∀ {l : List Char}, (List.dropWhile p l).getLast? = some c → l.getLast? = some c := by
  intro l
  induction l with
  | nil => simp [List.dropWhile]
  | cons a t ih =>
    intro h
    rw [List.dropWhile_cons] at h
    split at h
    · have ht := ih h
      cases t with
      | nil => simp at ht
      | cons b t' => rw [List.getLast?_cons_cons]; exact ht
    · exact h

lemma pyStrip_head?_false {p : Char → Bool} {l : List Char} {c : Char}
    (h : (pyStrip p l).head? = some c) : p c = false := by
  unfold pyStrip at h
  rw [List.head?_reverse] at h
  have h2 := getLast?_dropWhile_eq h
  rw [List.getLast?_reverse] at h2
  exact head?_dropWhile_false h2

lemma pyStrip_getLast?_false {p : Char → Bool} {l : List Char} {c : Char}
    (h : (pyStrip p l).getLast? = some c) : p c = false := by
  unfold pyStrip at h
  rw [List.getLast?_reverse] at h
  exact head?_dropWhile_false h

lemma allowedOrWs_nonspace {c : Char} (h1 : allowedOrWs c = true)
    (h2 : isPySpace c = false) : allowedChar c = true := by
  simp only [allowedOrWs, isPySpace, Bool.or_eq_true, decide_eq_true_eq] at h1
  simp only [isPySpace, Bool.or_eq_false_iff, decide_eq_false_iff_not] at h2
  simp only [allowedChar, Bool.or_eq_true, decide_eq_true_eq]
  tauto

lemma sanitizeCleaned_chars {title : String} {c : Char}
    (h : c ∈ sanitizeCleaned title) : allowedChar c = true := by
  unfold sanitizeCleaned at h
  have h1 := mem_of_mem_pyStrip (mem_of_mem_pyStrip h)
  have h2 := collapseUnderscores_subset h1
  rcases collapseWs_chars h2 with h3 | ⟨h3, h4⟩
  · subst h3; decide
  · rw [List.mem_filter] at h3
    exact allowedOrWs_nonspace (subDisallowed_chars h3.1) h4

lemma sanitizeCore_chars {cfg : Config} {title : String} {r : Nat} {c : Char}
    (h : c ∈ sanitizeCore cfg title r) : allowedChar c = true := by
  unfold sanitizeCore at h
  split at h
  · exact sanitizeCleaned_chars
      (mem_of_mem_pySliceTo (mem_of_mem_pyStrip (mem_of_mem_pyStrip h)))
  · exact sanitizeCleaned_chars h

lemma sanitizeCore_head?_ne {cfg : Config} {title : String} {r : Nat} {c : Char}
    (h : (sanitizeCore cfg title r).head? = some c) : c ≠ '_' := by
  unfold sanitizeCore at h
  split at h
  · simpa using pyStrip_head?_false h
  · unfold sanitizeCleaned at h
    simpa using pyStrip_head?_false h

lemma sanitizeCore_getLast?_ne {cfg : Config} {title : String} {r : Nat} {c : Char}
    (h : (sanitizeCore cfg title r).getLast? = some c) : c ≠ '_' := by
  unfold sanitizeCore at h
  split at h
  · simpa using pyStrip_getLast?_false h
  · unfold sanitizeCleaned at h
    simpa using pyStrip_getLast?_false h

/-! ## Claim C1 -/

/-- C1 counterexample: the title `"_ a _"` sanitizes to `" a "` — the final
`.strip().strip('_')` strips whitespace before underscores, so removing the
underscores exposes a leading and a trailing space, contradicting the claim's
"no leading or trailing space or underscore". -/
theorem C1_counterexample :
    sanitize_filename {} "_ a _" 0 = " a " ∧
    (sanitize_filename {} "_ a _" 0).toList.head? = some ' ' ∧
    (sanitize_filename {} "_ a _" 0).toList.getLast? = some ' ' := by
  decide

/-- C1 (amended): for every title and reserve amount, the sanitized filename
(before the extension is added) contains only characters from the allow-set,
is non-empty, has no leading or trailing *underscore* (a space exposed by
stripping an end underscore may remain), and if the normalization result is
empty the literal `untitled` is returned instead. -/
theorem C1_sanitize_filename_safe (cfg : Config) (title : String) (reserve : Nat) :
    (∀ c ∈ (sanitize_filename cfg title reserve).toList, allowedChar c = true) ∧
    (sanitize_filename cfg title reserve).toList ≠ [] ∧
    (∀ c, (sanitize_filename cfg title reserve).toList.head? = some c → c ≠ '_') ∧
    (∀ c, (sanitize_filename cfg title reserve).toList.getLast? = some c → c ≠ '_') ∧
    (sanitizeCore cfg title reserve = [] → sanitize_filename cfg title reserve = "untitled") := by
  unfold sanitize_filename
  by_cases hemp : (sanitizeCore cfg title reserve).isEmpty
  · rw [if_pos hemp]
    refine ⟨by decide, by decide, by decide, by decide, fun _ => rfl⟩
  · rw [if_neg hemp]
    have htl : (String.mk (sanitizeCore cfg title reserve)).toList
        = sanitizeCore cfg title reserve := rfl
    rw [htl]
    refine ⟨fun c hc => sanitizeCore_chars hc, ?_,
      fun c hc => sanitizeCore_head?_ne hc,
      fun c hc => sanitizeCore_getLast?_ne hc, ?_⟩
    · intro h
      exact hemp (by simp [h])
    · intro h
      exact absurd (by simp [h]) hemp

/-- C1 witness: the amended statement evaluated at a concrete input. -/
theorem C1_witness :
    (∀ c ∈ (sanitize_filename {} "ab" 0).toList, allowedChar c = true) ∧
    (sanitize_filename {} "ab" 0).toList ≠ [] ∧
    (∀ c, (sanitize_filename {} "ab" 0).toList.head? = some c → c ≠ '_') ∧
    (∀ c, (sanitize_filename {} "ab" 0).toList.getLast? = some c → c ≠ '_') ∧
    (sanitizeCore {} "ab" 0 = [] → sanitize_filename {} "ab" 0 = "untitled") :=
  C1_sanitize_filename_safe {} "ab" 0

/-! ## Claims C9 and C10 -/

/-- C9: the collection resolver maps a `None`/absent id to the literal
`"uncategorized"`, an id present in the configured id-to-name table to its
configured name, and every other id to itself, verbatim. -/
theorem C9_get_collection_name (cfg : Config) :
    get_collection_name cfg none = "uncategorized" ∧
    (∀ u n, cfg.collections.lookup u = some n → get_collection_name cfg (some u) = n) ∧
    (∀ u, cfg.collections.lookup u = none → get_collection_name cfg (some u) = u) := by
  refine ⟨rfl, ?_, ?_⟩
  · intro u n h
    simp [get_collection_name, h]
  · intro u h
    simp [get_collection_name, h]

/-- C9 witness: resolution at a concrete configuration mapping one id. -/
theorem C9_witness :
    get_collection_name { collections := [("id1", "Research")] } none = "uncategorized" ∧
    get_collection_name { collections := [("id1", "Research")] } (some "id1") = "Research" ∧
    get_collection_name { collections := [("id1", "Research")] } (some "other") = "other" :=
  ⟨(C9_get_collection_name { collections := [("id1", "Research")] }).1,
   (C9_get_collection_name { collections := [("id1", "Research")] }).2.1 "id1" "Research" (by decide),
   (C9_get_collection_name { collections := [("id1", "Research")] }).2.2 "other" (by decide)⟩

/-- C10: an empty-string collection id is not `None`, so it is not mapped to
`"uncategorized"`; with no mapping for `""` the resolver returns `""`
unchanged, and `pathlib` drops the empty path segment, so the record's target
directory is the output base directory itself. -/
theorem C10_empty_collection_id (cfg : Config) (base : String) (conv : Conv)
    (h1 : cfg.collections.lookup "" = none) (h2 : conv.collection_uuid = some "") :
    get_collection_name cfg (some "") = "" ∧
    dirOf cfg base conv = base ∧
    (∀ export_date now fs f,
      processOne cfg export_date now base fs conv = .ok f → f.dir = base) := by
  have hg : get_collection_name cfg (some "") = "" := by
    simp [get_collection_name, h1]
  have hd : dirOf cfg base conv = base := by
    simp [dirOf, h2, hg, pathJoin]
  refine ⟨hg, hd, ?_⟩
  intro export_date now fs f h
  unfold processOne at h
  split at h
  · exact absurd h (by simp)
  · split at h
    · exact absurd h (by simp)
    · simp only [Except.ok.injEq] at h
      rw [← h, hd]

/-- C10 witness: a record whose collection id is the empty string resolves to
the base directory at concrete inputs. -/
theorem C10_witness :
    get_collection_name {} (some "") = "" ∧
    dirOf {} "output" { collection_uuid := some "" } = "output" ∧
    (∀ export_date now fs f,
      processOne {} export_date now "output" fs { collection_uuid := some "" } = .ok f →
        f.dir = "output") :=
  C10_empty_collection_id {} "output" { collection_uuid := some "" } (by decide) rfl

/-! ## Claim C2 -/

/-- C2: with `append_date` configured, every generated filename reserves
`len(timestamp_suffix) + 1` characters out of `max_length` and ends in
`-<timestamp_suffix>.md`; without it, the filename carries no suffix, and only
on a collision with an existing file is the candidate discarded,
`len(timestamp_suffix) + 1 + 15` characters reserved and the suffix appended —
in particular, of two records with the same normalized title written in
sequence to one directory, the second acquires the suffix and the first does
not. -/
theorem C2_generate_unique_filename (cfg : Config) (now : PyDateTime)
    (title created_at : String) (existing : List String) (suffix : String)
    (hsuf : dateSuffix cfg now created_at = .ok suffix) :
    (cfg.append_date = true →
      generate_unique_filename cfg now title created_at existing
        = .ok (sanitize_filename cfg title (suffix.length + 1) ++ "-" ++ suffix ++ ".md")) ∧
    (cfg.append_date = false → sanitize_filename cfg title 0 ++ ".md" ∉ existing →
      generate_unique_filename cfg now title created_at existing
        = .ok (sanitize_filename cfg title 0 ++ ".md")) ∧
    (cfg.append_date = false → sanitize_filename cfg title 0 ++ ".md" ∈ existing →
      generate_unique_filename cfg now title created_at existing
        = .ok (sanitize_filename cfg title (suffix.length + 1 + 15) ++ "-" ++ suffix ++ ".md")) ∧
    (cfg.append_date = false →
      generate_unique_filename cfg now title created_at []
          = .ok (sanitize_filename cfg title 0 ++ ".md") ∧
        generate_unique_filename cfg now title created_at [sanitize_filename cfg title 0 ++ ".md"]
          = .ok (sanitize_filename cfg title (suffix.length + 1 + 15) ++ "-" ++ suffix ++ ".md")) := by
  refine ⟨?_, ?_, ?_, ?_⟩
  · intro happ
    simp [generate_unique_filename, hsuf, happ]
  · intro happ hmem
    simp [generate_unique_filename, hsuf, happ, hmem]
  · intro happ hmem
    simp [generate_unique_filename, hsuf, happ, hmem]
  · intro happ
    constructor
    · simp [generate_unique_filename, hsuf, happ]
    · simp [generate_unique_filename, hsuf, happ]

/-- C2 witness: the three branches at concrete inputs (timestamp suffix
`20240102T030405` from `2024-01-02T03:04:05Z`). -/
theorem C2_witness :
    generate_unique_filename {} ⟨2024, 1, 2, 3, 4, 5⟩ "hello" "2024-01-02T03:04:05Z" []
        = .ok (sanitize_filename {} "hello" 0 ++ ".md") ∧
    generate_unique_filename {} ⟨2024, 1, 2, 3, 4, 5⟩ "hello" "2024-01-02T03:04:05Z"
        [sanitize_filename {} "hello" 0 ++ ".md"]
        = .ok (sanitize_filename {} "hello" ("20240102T030405".length + 1 + 15)
               ++ "-" ++ "20240102T030405" ++ ".md") ∧
    generate_unique_filename { append_date := true } ⟨2024, 1, 2, 3, 4, 5⟩ "hello"
        "2024-01-02T03:04:05Z" []
        = .ok (sanitize_filename { append_date := true } "hello" ("20240102T030405".length + 1)
               ++ "-" ++ "20240102T030405" ++ ".md") :=
  ⟨((C2_generate_unique_filename {} ⟨2024, 1, 2, 3, 4, 5⟩ "hello" "2024-01-02T03:04:05Z" []
      "20240102T030405" (by decide)).2.2.2 rfl).1,
   ((C2_generate_unique_filename {} ⟨2024, 1, 2, 3, 4, 5⟩ "hello" "2024-01-02T03:04:05Z" []
      "20240102T030405" (by decide)).2.2.2 rfl).2,
   (C2_generate_unique_filename { append_date := true } ⟨2024, 1, 2, 3, 4, 5⟩ "hello"
      "2024-01-02T03:04:05Z" [] "20240102T030405" (by decide)).1 rfl⟩

/-! ## Claim C4 -/

/-- A run of adjacent bracket-integer tokens: one or more `[digits]` units
with no separator — exactly the matches of `(\[\d+\])+`. -/
inductive IsCitationRun : List Char → Prop where
  | unit (ds : List Char) (h1 : ds ≠ []) (h2 : ∀ c ∈ ds, c.isDigit = true) :
      IsCitationRun ('[' :: ds ++ [']'])
  | cons (ds : List Char) (r : List Char) (h1 : ds ≠ []) (h2 : ∀ c ∈ ds, c.isDigit = true)
      (h3 : IsCitationRun r) : IsCitationRun ('[' :: ds ++ ']' :: r)

lemma rmcAux_digits : ∀ (ds : List Char), (∀ c ∈ ds, c.isDigit = true) →
    ∀ (a : Char) (p t : List Char), rmcAux (a :: p) (ds ++ t) = rmcAux (a :: (p ++ ds)) t := by
  intro ds
  induction ds with
  | nil => intro _ a p t; simp
  | cons d ds' ih =>
    intro h a p t
    have hd : d.isDigit = true := h d (List.mem_cons_self d ds')
    have h' : ∀ c ∈ ds', c.isDigit = true := fun c hc => h c (List.mem_cons_of_mem d hc)
    show rmcAux (a :: p) (d :: (ds' ++ t)) = _
    rw [rmcAux, hd]
    simp only [if_true]
    have e1 : (a :: p) ++ [d] = a :: (p ++ [d]) := by simp
    rw [e1, ih h' a (p ++ [d]) t]
    · simp
    · intro he
      simp at he

lemma rmcAux_unit (ds : List Char) (h1 : ds ≠ []) (h2 : ∀ c ∈ ds, c.isDigit = true)
    (t : List Char) : rmcAux [] ('[' :: (ds ++ (']' :: t))) = rmcAux [] t := by
  rw [rmcAux]
  simp only [if_pos rfl]
  rw [rmcAux_digits ds h2 '[' [] (']' :: t)]
  simp only [List.nil_append]
  cases ds with
  | nil => exact absurd rfl h1
  | cons e es =>
    rw [rmcAux]
    have hnd : (']' : Char).isDigit = false := by decide
    rw [hnd]
    · simp only [Bool.false_eq_true, if_false]
      have hcond : (decide True && decide (('[' :: e :: es).length ≥ 2)) = true := by
        simp
      rw [if_pos hcond]
      simp
    · intro he
      simp at he

lemma rmcAux_run {r : List Char} (h : IsCitationRun r) :
    ∀ t, rmcAux [] (r ++ t) = rmcAux [] t := by
  induction h with
  | unit ds h1 h2 =>
    intro t
    have he : ('[' :: ds ++ [']']) ++ t = '[' :: (ds ++ (']' :: t)) := by simp
    rw [he, rmcAux_unit ds h1 h2 t]
  | cons ds r h1 h2 h3 ih =>
    intro t
    have he : ('[' :: ds ++ ']' :: r) ++ t = '[' :: (ds ++ (']' :: (r ++ t))) := by simp
    rw [he, rmcAux_unit ds h1 h2 (r ++ t)]
    exact ih t

lemma rmcAux_nodigit : ∀ (l : List Char), (∀ c ∈ l, c.isDigit = false) →
    rmcAux [] l = l ∧ rmcAux ['['] l = '[' :: l := by
  intro l
  induction l with
  | nil => intro _; exact ⟨rfl, rfl⟩
  | cons c rest ih =>
    intro h
    have hc : c.isDigit = false := h c (List.mem_cons_self c rest)
    have hrest := ih (fun x hx => h x (List.mem_cons_of_mem c hx))
    constructor
    · rw [rmcAux]
      by_cases h1 : c = '['
      · subst h1
        rw [if_pos rfl]
        exact hrest.2
      · rw [if_neg h1]
        rw [hrest.1]
    · rw [rmcAux]
      · rw [hc]
        simp only [Bool.false_eq_true, if_false]
        have hl : (decide ((['['] : List Char).length ≥ 2)) = false := by decide
        rw [hl, Bool.and_false]
        simp only [Bool.false_eq_true, if_false]
        by_cases h1 : c = '['
        · subst h1
          rw [if_pos rfl]
          rw [hrest.2]
          rfl
        · rw [if_neg h1]
          rw [hrest.1]
          rfl
      · intro he
        simp at he

/-- C4: citation stripping deletes every run of adjacent bracket-integer
tokens as a single unit (for any run and any right context), leaves text
without digits — in particular brackets with non-numeric content — untouched,
and maps `"result[1][2] more"` to `"result more"`. -/
theorem C4_remove_citation_numbers :
    remove_citation_numbers "result[1][2] more" = "result more" ∧
    (∀ s : String, (∀ c ∈ s.toList, c.isDigit = false) → remove_citation_numbers s = s) ∧
    (∀ (r t : List Char), IsCitationRun r →
      remove_citation_numbers (String.mk (r ++ t)) = remove_citation_numbers (String.mk t)) := by
  refine ⟨by decide, ?_, ?_⟩
  · intro s h
    show String.mk (rmcAux [] s.data) = s
    rw [(rmcAux_nodigit s.data h).1]
  · intro r t h
    show String.mk (rmcAux [] (r ++ t)) = String.mk (rmcAux [] t)
    rw [rmcAux_run h t]

/-- C4 witness: non-numeric brackets untouched and a two-unit run deleted as
a whole, at concrete inputs. -/
theorem C4_witness :
    remove_citation_numbers "[abc]" = "[abc]" ∧
    remove_citation_numbers (String.mk ('[' :: ['1'] ++ ']' :: ('[' :: ['2'] ++ [']']) ++ "x".toList))
      = remove_citation_numbers (String.mk "x".toList) :=
  ⟨C4_remove_citation_numbers.2.1 "[abc]" (by decide),
   by
    have h := C4_remove_citation_numbers.2.2
      ('[' :: ['1'] ++ ']' :: ('[' :: ['2'] ++ [']'])) "x".toList
      (IsCitationRun.cons ['1'] ('[' :: ['2'] ++ [']']) (by decide) (by decide)
        (IsCitationRun.unit ['2'] (by decide) (by decide)))
    simpa using h⟩

/-! ## Claim C5 -/

/-- C5 counterexample: the code reads the entry key `query_status`, not
`status`.  An entry whose payload `status` field is `"PENDING"` (with no
`query_status` key) renders the bare-`)` heading, where the claim — reading
the field named `entries[].status` — would render `) PENDING`. -/
theorem C5_counterexample :
    answerHeading {} "WEB" { status := some "PENDING" } = "# Answer (web)" ∧
    specAnswerHeading {} "WEB" { status := some "PENDING" } = "# Answer (web) PENDING" ∧
    answerHeading {} "WEB" { status := some "PENDING" }
      ≠ specAnswerHeading {} "WEB" { status := some "PENDING" } := by
  decide

/-- C5 (amended): the rendered answer heading is `# Answer (<mode lowercased>`,
followed by ` - <formatted entry timestamp>` when the entry has a
`created_at`, then `)` — except that when the entry's `query_status` field
(defaulting to `COMPLETED`) is not `COMPLETED`, `) <status>` is appended
instead of the bare `)`; the mode defaults to the record's mode when the
entry lacks one. -/
theorem C5_answer_heading (cfg : Config) (conv_mode : String) (e : Entry) :
    answerHeading cfg conv_mode e
      = "# Answer (" ++ pyLower (e.mode.getD conv_mode)
        ++ (if e.created_at ≠ "" then " - " ++ format_date cfg e.created_at else "")
        ++ (if e.query_status.getD "COMPLETED" ≠ "COMPLETED"
            then ") " ++ e.query_status.getD "COMPLETED" else ")") := by
  unfold answerHeading
  by_cases h1 : e.created_at = "" <;>
    by_cases h2 : e.query_status.getD "COMPLETED" = "COMPLETED" <;>
      simp [h1, h2, String.join, String.append_assoc]

/-- C5 witness: the heading characterization at a concrete entry. -/
theorem C5_witness :
    answerHeading {} "WEB" { query_status := some "PENDING", created_at := "2024-01-02T03:04:05Z" }
      = "# Answer (" ++ pyLower ((none : Option String).getD "WEB")
        ++ (if ("2024-01-02T03:04:05Z" : String) ≠ "" then
              " - " ++ format_date {} "2024-01-02T03:04:05Z" else "")
        ++ (if ((some "PENDING" : Option String).getD "COMPLETED") ≠ "COMPLETED"
            then ") " ++ ((some "PENDING" : Option String).getD "COMPLETED") else ")") :=
  C5_answer_heading {} "WEB"
    { query_status := some "PENDING", created_at := "2024-01-02T03:04:05Z" }

/-! ## Claim C6 -/

/-- C6 counterexample: a record whose *entry-level* `created_at` is the
malformed string `"BAD"` is not aborted: `format_date` catches the parse
failure (`except Exception: return iso_datetime`) and echoes the raw string,
so the record renders successfully and nothing is logged. -/
theorem C6_counterexample :
    format_date {} "BAD" = "BAD" ∧
    (processConvs {} "2025-01-01" ⟨2024, 1, 2, 3, 4, 5⟩ "2024-01-02T00:00:00" "output"
      [{ context_title := some "T", entries := [{ answer := some "x", created_at := "BAD" }] }]
      []).failed = 0 ∧
    (processConvs {} "2025-01-01" ⟨2024, 1, 2, 3, 4, 5⟩ "2024-01-02T00:00:00" "output"
      [{ context_title := some "T", entries := [{ answer := some "x", created_at := "BAD" }] }]
      []).successful = 1 := by
  decide

/-- C6 (amended): a malformed (non-empty, unparseable) *record-level*
`created_at` propagates out of both the Namer and the metadata block, so the
run loop aborts exactly that record, logs it with title and timestamp, and
continues with the rest; a malformed *entry-level* `created_at` never raises:
`format_date` catches the failure and uses the raw string in the heading. -/
theorem C6_malformed_timestamps (cfg : Config) (now : PyDateTime) (s : String)
    (h1 : s ≠ "") (h2 : fromisoformat (String.mk (replaceZ s.toList)) = none) :
    (∀ title existing,
      generate_unique_filename cfg now title s existing
        = .error ("ValueError: Invalid isoformat string: " ++ s)) ∧
    (∀ export_date conv, conv.created_at = s →
      create_markdown cfg export_date conv
        = .error ("ValueError: Invalid isoformat string: " ++ s)) ∧
    format_date cfg s = s ∧
    (∀ export_date now_iso base fs conv rest, conv.created_at = s →
      processConvs cfg export_date now now_iso base (conv :: rest) fs
        = { files := (processConvs cfg export_date now now_iso base rest fs).files,
            errors := { title := conv.context_title.getD "Untitled",
                        error := "ValueError: Invalid isoformat string: " ++ s,
                        timestamp := now_iso }
              :: (processConvs cfg export_date now now_iso base rest fs).errors,
            successful := (processConvs cfg export_date now now_iso base rest fs).successful,
            failed := (processConvs cfg export_date now now_iso base rest fs).failed + 1 }) := by
  have h2' : fromisoformat { data := replaceZ s.data } = none := h2
  have hgen : ∀ title existing,
      generate_unique_filename cfg now title s existing
        = .error ("ValueError: Invalid isoformat string: " ++ s) := by
    intro title existing
    simp [generate_unique_filename, dateSuffix, h1, h2']
  refine ⟨hgen, ?_, ?_, ?_⟩
  · intro export_date conv hconv
    simp [create_markdown, recordDateStr, hconv, h1, h2']
  · simp [format_date, h1, h2']
  · intro export_date now_iso base fs conv rest hconv
    have hp : processOne cfg export_date now base fs conv
        = .error ("ValueError: Invalid isoformat string: " ++ s) := by
      unfold processOne
      rw [hconv, hgen]
    simp [processConvs, hp]

/-- C6 witness: the amended behavior at the malformed timestamp `"BAD"`. -/
theorem C6_witness :
    format_date {} "BAD" = "BAD" ∧
    generate_unique_filename {} ⟨2024, 1, 2, 3, 4, 5⟩ "T" "BAD" []
      = .error ("ValueError: Invalid isoformat string: " ++ "BAD") :=
  ⟨(C6_malformed_timestamps {} ⟨2024, 1, 2, 3, 4, 5⟩ "BAD" (by decide) (by decide)).2.2.1,
   (C6_malformed_timestamps {} ⟨2024, 1, 2, 3, 4, 5⟩ "BAD" (by decide) (by decide)).1 "T" []⟩

/-! ## Claim C7 -/

lemma processConvs_invariants (cfg : Config) (d : String) (now : PyDateTime)
    (iso base : String) : ∀ (convs : List Conv) (fs : List (String × String)),
    (processConvs cfg d now iso base convs fs).successful
        + (processConvs cfg d now iso base convs fs).failed = convs.length ∧
    (processConvs cfg d now iso base convs fs).errors.length
        = (processConvs cfg d now iso base convs fs).failed ∧
    ∀ err ∈ (processConvs cfg d now iso base convs fs).errors,
      err.timestamp = iso ∧ ∃ c ∈ convs, err.title = c.context_title.getD "Untitled" := by
  intro convs
  induction convs with
  | nil => intro fs; simp [processConvs]
  | cons conv rest ih =>
    intro fs
    rw [processConvs]
    cases hp : processOne cfg d now base fs conv with
    | ok f =>
      have ih' := ih ((f.dir, f.name) :: fs)
      refine ⟨by simp; omega, ih'.2.1, ?_⟩
      · intro err herr
        have h := ih'.2.2 err herr
        exact ⟨h.1, h.2.elim (fun c hc => ⟨c, List.mem_cons_of_mem conv hc.1, hc.2⟩)⟩
    | error e =>
      have ih' := ih fs
      refine ⟨by simp; omega, by simp [ih'.2.1], ?_⟩
      · intro err herr
        rcases List.mem_cons.mp herr with h | h
        · subst h
          exact ⟨rfl, ⟨conv, List.mem_cons_self conv rest, rfl⟩⟩
        · have h2 := ih'.2.2 err h
          exact ⟨h2.1, h2.2.elim (fun c hc => ⟨c, List.mem_cons_of_mem conv hc.1, hc.2⟩)⟩

lemma errorLogWritten_iff {failed : Nat} {errors : List ErrorEntry}
    (h : errors.length = failed) : (errorLogWritten failed errors = true ↔ 0 < failed) := by
  cases failed with
  | zero => simp [errorLogWritten]
  | succ n =>
    cases errors with
    | nil => simp at h
    | cons e es => simp [errorLogWritten]

/-- C7 counterexample: an input file that exists but cannot be loaded as JSON
also makes the process exit non-zero (`json.load` failure → `sys.exit(1)`),
contradicting "exits non-zero *only* when the input file is missing". -/
theorem C7_counterexample :
    (runExporter {} ⟨2025, 1, 1, 0, 0, 0⟩ ⟨2025, 1, 1, 0, 0, 0⟩ "t" .unparseable).exitCode = 1 ∧
    LoadResult.unparseable ≠ LoadResult.missing := by
  decide

/-- C7 (amended): every per-record failure is caught, appended to the error
list with the run clock's timestamp and the record's title, and processing
continues (successes and failures partition the record list); `ERRORS.log` is
written iff at least one record failed; the exit status is non-zero exactly
when the input file is missing *or its JSON cannot be loaded*, and zero
otherwise regardless of per-record failures. -/
theorem C7_per_record_errors (cfg : Config) (init_now now : PyDateTime) (now_iso : String) :
    (runExporter cfg init_now now now_iso .missing).exitCode = 1 ∧
    (runExporter cfg init_now now now_iso .unparseable).exitCode = 1 ∧
    (∀ convs, (runExporter cfg init_now now now_iso (.parsed convs)).exitCode = 0) ∧
    (∀ convs, (runExporter cfg init_now now now_iso (.parsed convs)).successful
        + (runExporter cfg init_now now now_iso (.parsed convs)).failed = convs.length) ∧
    (∀ convs, (runExporter cfg init_now now now_iso (.parsed convs)).errors.length
        = (runExporter cfg init_now now now_iso (.parsed convs)).failed) ∧
    (∀ convs err, err ∈ (runExporter cfg init_now now now_iso (.parsed convs)).errors →
      err.timestamp = now_iso ∧ ∃ c ∈ convs, err.title = c.context_title.getD "Untitled") ∧
    (∀ convs, ((runExporter cfg init_now now now_iso (.parsed convs)).errorLogWritten = true
        ↔ 0 < (runExporter cfg init_now now now_iso (.parsed convs)).failed)) := by
  have hinv := processConvs_invariants cfg (strftime init_now "%Y-%m-%d") now now_iso cfg.base_dir
  refine ⟨rfl, rfl, fun convs => rfl, ?_, ?_, ?_, ?_⟩
  · intro convs
    exact (hinv convs []).1
  · intro convs
    exact (hinv convs []).2.1
  · intro convs err herr
    exact (hinv convs []).2.2 err herr
  · intro convs
    exact errorLogWritten_iff (hinv convs []).2.1

/-- C7 witness: the amended statement at a concrete run. -/
theorem C7_witness :
    (runExporter {} ⟨2025, 1, 1, 0, 0, 0⟩ ⟨2025, 1, 1, 0, 0, 0⟩ "clock" .missing).exitCode = 1 ∧
    (runExporter {} ⟨2025, 1, 1, 0, 0, 0⟩ ⟨2025, 1, 1, 0, 0, 0⟩ "clock" .unparseable).exitCode = 1 ∧
    (∀ convs, (runExporter {} ⟨2025, 1, 1, 0, 0, 0⟩ ⟨2025, 1, 1, 0, 0, 0⟩ "clock"
        (.parsed convs)).exitCode = 0) ∧
    (∀ convs, (runExporter {} ⟨2025, 1, 1, 0, 0, 0⟩ ⟨2025, 1, 1, 0, 0, 0⟩ "clock"
        (.parsed convs)).successful
        + (runExporter {} ⟨2025, 1, 1, 0, 0, 0⟩ ⟨2025, 1, 1, 0, 0, 0⟩ "clock"
        (.parsed convs)).failed = convs.length) ∧
    (∀ convs, (runExporter {} ⟨2025, 1, 1, 0, 0, 0⟩ ⟨2025, 1, 1, 0, 0, 0⟩ "clock"
        (.parsed convs)).errors.length
        = (runExporter {} ⟨2025, 1, 1, 0, 0, 0⟩ ⟨2025, 1, 1, 0, 0, 0⟩ "clock"
        (.parsed convs)).failed) ∧
    (∀ convs err, err ∈ (runExporter {} ⟨2025, 1, 1, 0, 0, 0⟩ ⟨2025, 1, 1, 0, 0, 0⟩ "clock"
        (.parsed convs)).errors →
      err.timestamp = "clock" ∧ ∃ c ∈ convs, err.title = c.context_title.getD "Untitled") ∧
    (∀ convs, ((runExporter {} ⟨2025, 1, 1, 0, 0, 0⟩ ⟨2025, 1, 1, 0, 0, 0⟩ "clock"
        (.parsed convs)).errorLogWritten = true
        ↔ 0 < (runExporter {} ⟨2025, 1, 1, 0, 0, 0⟩ ⟨2025, 1, 1, 0, 0, 0⟩ "clock"
        (.parsed convs)).failed)) :=
  C7_per_record_errors {} ⟨2025, 1, 1, 0, 0, 0⟩ ⟨2025, 1, 1, 0, 0, 0⟩ "clock"

/-! ## Claim C8 -/

lemma processOne_content {cfg : Config} {d : String} {now : PyDateTime}
    {base : String} {fs : List (String × String)} {conv : Conv} {g : FileOut}
    (h : processOne cfg d now base fs conv = .ok g) :
    create_markdown cfg d conv = .ok g.content := by
  unfold processOne at h
  split at h
  · exact absurd h (by simp)
  · split at h
    · exact absurd h (by simp)
    · simp only [Except.ok.injEq] at h
      rw [← h]
      assumption

/-- C8: rendering is deterministic within a run: the Formatter is a pure
function of the record, the configuration and the run's single
`export_date`, and every file content the loop writes equals
`create_markdown` of its record with that one `export_date` — so rendering
the same record twice in one run yields byte-identical output. -/
theorem C8_render_deterministic (cfg : Config) (export_date : String) :
    (∀ conv conv' : Conv, conv = conv' →
      create_markdown cfg export_date conv = create_markdown cfg export_date conv') ∧
    (∀ now now_iso base fs convs f,
      f ∈ (processConvs cfg export_date now now_iso base convs fs).files →
      ∃ c ∈ convs, create_markdown cfg export_date c = .ok f.content) := by
  refine ⟨fun _ _ h => h ▸ rfl, ?_⟩
  intro now now_iso base fs convs f
  induction convs generalizing fs with
  | nil => simp [processConvs]
  | cons conv rest ih =>
    intro hf
    rw [processConvs] at hf
    cases hp : processOne cfg export_date now base fs conv with
    | ok g =>
      rw [hp] at hf
      simp only [List.mem_cons] at hf
      rcases hf with hf | hf
      · exact ⟨conv, List.mem_cons_self conv rest, hf ▸ processOne_content hp⟩
      · rcases ih _ hf with ⟨c, hc, he⟩
        exact ⟨c, List.mem_cons_of_mem conv hc, he⟩
    | error e =>
      rw [hp] at hf
      rcases ih _ hf with ⟨c, hc, he⟩
      exact ⟨c, List.mem_cons_of_mem conv hc, he⟩

/-- C8 witness: the content written for a concrete record in a concrete run
is `create_markdown` of that record. -/
theorem C8_witness :
    ∃ c ∈ [({ context_title := some "T" } : Conv)],
      create_markdown {} "2025-01-01" c
        = .ok ((processConvs {} "2025-01-01" ⟨2025, 1, 1, 0, 0, 0⟩ "t" "output"
            [{ context_title := some "T" }] []).files.headD ⟨"", "", ""⟩).content :=
  (C8_render_deterministic {} "2025-01-01").2 ⟨2025, 1, 1, 0, 0, 0⟩ "t" "output" []
    [{ context_title := some "T" }]
    ((processConvs {} "2025-01-01" ⟨2025, 1, 1, 0, 0, 0⟩ "t" "output"
        [{ context_title := some "T" }] []).files.headD ⟨"", "", ""⟩)
    (by decide)

/-! ## Claim C3 -/

lemma splitNl_append (l : List Char) (h : '\n' ∉ l) (t h' : List Char) (r : List (List Char))
    (ht : splitNl t = h' :: r) : splitNl (l ++ t) = (l ++ h') :: r := by
  induction l with
  | nil => simpa using ht
  | cons c cs ih =>
    have hc : ¬ c = '\n' := fun e => h (e ▸ List.mem_cons_self c cs)
    have hcs : '\n' ∉ cs := fun m => h (List.mem_cons_of_mem c m)
    show splitNl (c :: (cs ++ t)) = _
    rw [splitNl]
    · rw [ih hcs]
      rfl
    · intro he
      exact hc he

lemma splitNl_single {l : List Char} (h : '\n' ∉ l) : splitNl l = [l] := by
  have h0 : splitNl ([] : List Char) = [] :: [] := rfl
  have h1 := splitNl_append l h [] [] [] h0
  simpa using h1

lemma splitNl_joinNl : ∀ (ls : List (List Char)), ls ≠ [] → (∀ l ∈ ls, '\n' ∉ l) →
    splitNl (joinNl ls) = ls := by
  intro ls
  induction ls with
  | nil => intro h; exact absurd rfl h
  | cons l ls' ih =>
    intro _ hnl
    cases ls' with
    | nil =>
      show splitNl (joinNl [l]) = [l]
      rw [joinNl]
      exact splitNl_single (hnl l (List.mem_cons_self l []))
    | cons m ms =>
      show splitNl (l ++ '\n' :: joinNl (m :: ms)) = l :: m :: ms
      have hrest : splitNl ('\n' :: joinNl (m :: ms)) = [] :: (m :: ms) := by
        rw [splitNl]
        rw [ih (by simp) (fun x hx => hnl x (List.mem_cons_of_mem l hx))]
      have := splitNl_append l (hnl l (List.mem_cons_self l (m :: ms)))
        ('\n' :: joinNl (m :: ms)) [] (m :: ms) hrest
      simpa using this

lemma headingMatch_strip {l : List Char} (hm : headingMatch l = true) :
    (pyStrip isPySpace l).take 1 = ['#'] := by
  cases l with
  | nil => simp [headingMatch] at hm
  | cons a t =>
    have ha : a = '#' := by
      by_contra hne
      simp [headingMatch, List.takeWhile, hne] at hm
    subst ha
    have hfront : List.dropWhile isPySpace ('#' :: t) = '#' :: t := by
      rw [List.dropWhile_cons]
      simp [isPySpace]
    unfold pyStrip
    rw [hfront]
    have hmem : ('#' : Char) ∈ ('#' :: t).reverse := by simp
    have hne : List.dropWhile isPySpace (('#' :: t).reverse) ≠ [] := by
      intro he
      have := List.dropWhile_eq_nil_iff.mp he '#' hmem
      simp [isPySpace] at this
    cases hm2 : List.dropWhile isPySpace (('#' :: t).reverse) with
    | nil => exact absurd hm2 hne
    | cons b bs =>
      cases hx : (b :: bs).getLast? with
      | none => simp at hx
      | some x =>
        have h1 : (('#' :: t).reverse).getLast? = some x :=
          getLast?_dropWhile_eq (by rw [hm2]; exact hx)
        rw [List.getLast?_reverse] at h1
        simp only [List.head?_cons, Option.some.injEq] at h1
        have hhead : ((b :: bs).reverse).head? = some '#' := by
          rw [List.head?_reverse, hx, h1]
        cases hr : (b :: bs).reverse with
        | nil => simp [hr] at hhead
        | cons y ys =>
          rw [hr] at hhead
          simp only [List.head?_cons, Option.some.injEq] at hhead
          simp [hhead]

lemma demoteLine_eq (l : List Char) :
    demoteLine l = if headingMatch l then '#' :: rmcAux [] l else l := by
  by_cases hm : headingMatch l = true
  · simp [demoteLine, headingMatch_strip hm, hm]
  · have hm' : headingMatch l = false := by simpa using hm
    simp [demoteLine, hm']

/-- C3 counterexample: the answer `" # A[1]"` has no line *beginning* with a
single `#` (its only line starts with a space), so by the claim no demotion
happens and citation markers are stripped from the entire text, giving
`" # A"`; the code's trigger regex `^\s*#\s` tolerates the leading
whitespace, so the demotion branch runs instead — and since the indented line
does not match `^(#+)\s` it is left completely untouched, `[1]` included. -/
theorem C3_counterexample :
    specHasLevel1 " # A[1]" = false ∧
    hasLevel1 " # A[1]" = true ∧
    processAnswer " # A[1]" = " # A[1]" ∧
    remove_citation_numbers " # A[1]" = " # A" ∧
    processAnswer " # A[1]" ≠ remove_citation_numbers " # A[1]" := by
  decide

/-- C3 (amended): the demotion branch runs iff some line, after optional
leading whitespace, has a `#` immediately followed by whitespace (the newline
ending a non-final line counts); in that branch exactly the lines beginning —
unindented — with one or more `#` followed by whitespace are rewritten, each
prefixed with one extra `#` and stripped of citation markers, and all other
lines (indented headings included) are untouched; with no such line, heading
levels stay and citation markers are stripped from the whole answer.  In
particular `"# A\n## B"` becomes `"## A\n### B"`, and `"## B"` stays `"## B"`
while `[12]`-style citations elsewhere are still removed. -/
theorem C3_heading_demotion :
    processAnswer "# A\n## B" = "## A\n### B" ∧
    processAnswer "## B" = "## B" ∧
    processAnswer "x[12]\n## B" = "x\n## B" ∧
    processAnswer " # A\n# B" = " # A\n## B" ∧
    (∀ ls : List (List Char), ls ≠ [] → (∀ l ∈ ls, '\n' ∉ l) →
      demote_headings (String.mk (joinNl ls)) = String.mk (joinNl (ls.map demoteLine))) ∧
    (∀ l : List Char, demoteLine l = if headingMatch l then '#' :: rmcAux [] l else l) := by
  refine ⟨by decide, by decide, by decide, by decide, ?_, demoteLine_eq⟩
  intro ls h1 h2
  unfold demote_headings
  have : (String.mk (joinNl ls)).toList = joinNl ls := rfl
  rw [this, splitNl_joinNl ls h1 h2]

/-- C3 witness: the per-line rewriting applied to a concrete two-line answer. -/
theorem C3_witness :
    demote_headings (String.mk (joinNl ["# A".toList, "x".toList]))
      = String.mk (joinNl (["# A".toList, "x".toList].map demoteLine)) :=
  C3_heading_demotion.2.2.2.2.1 ["# A".toList, "x".toList] (by decide) (by decide)

end PEC
